import Mathlib

/-!
Verification of the doc-keeper revisioned document store.

The definitions below are a shallow embedding of the Python/Django source
under `backend/apps/`:

* `FileRevision.save` and `RevisionManager.get_next_revision_number`
  (revision-number allocation),
* `RevisionManager.cleanup_old_revisions` (retention),
* `utils.calculate_user_storage_usage` / `update_user_storage_usage` /
  `check_user_storage_limit` / `create_file_document` /
  `delete_file_revision` / `delete_file_document`,
* `StorageQuotaManager.check_quota_available` / `update_user_quota` /
  `get_quota_status`,
* `UserProfile.can_upload_file`,
* `validators.validate_user_storage_limit` and the rest of the upload
  validator chain, and
* `FileListCreateView.post` (upload endpoint).

Django querysets over the revision table of a single document are modelled
as lists of revision records; `order_by('-revision_number')` is modelled by
insertion sort with the corresponding descending relation.  Database rows
carry no float arithmetic relevant to the claims; byte counts are exact
integers in the source (Python ints) and are modelled as `Nat` / `Int`.
-/

/-- A row of the `FileRevision` table, restricted to the columns the claims
are about.  `has_file_data` records whether the row's `file_data` field is
truthy (uploads always set it). -/
structure FileRevisionRec where
  revision_number : Nat
  file_size : Nat
  has_file_data : Bool
deriving Repr, DecidableEq

/-- Ordering used by `order_by('-revision_number')`: descending by
revision number. -/
def revisionDescOrder (a b : FileRevisionRec) : Prop :=
  b.revision_number ≤ a.revision_number

instance : DecidableRel revisionDescOrder :=
  fun a b => Nat.decLe b.revision_number a.revision_number

instance : IsTotal FileRevisionRec revisionDescOrder :=
  ⟨fun a b => Nat.le_total b.revision_number a.revision_number⟩

instance : IsTrans FileRevisionRec revisionDescOrder :=
  ⟨fun _ _ _ hab hbc => Nat.le_trans hbc hab⟩

/-- Model of `document.revisions.order_by('-revision_number')`. -/
def orderByRevisionDesc (revs : List FileRevisionRec) : List FileRevisionRec :=
  revs.insertionSort revisionDescOrder

/-- Model of `RevisionManager.get_next_revision_number` (storage.py 139-149)
and of the identical query in `FileRevision.save` (models.py 90-96): take the
first row of the descending ordering (`last_revision`); if it exists the next
number is its number plus one, otherwise 0. -/
def get_next_revision_number (revs : List FileRevisionRec) : Nat :=
  match (orderByRevisionDesc revs).head? with
  | none => 0
  | some last_revision => last_revision.revision_number + 1

/-- Model of `FileRevision.save` for a freshly created revision whose
`revision_number` is unset (models.py 85-98): the number is auto-assigned
and the row is inserted.  Returns the saved row and the new table. -/
def saveNewRevision (revs : List FileRevisionRec) (size : Nat) :
    FileRevisionRec × List FileRevisionRec :=
  let r : FileRevisionRec :=
    { revision_number := get_next_revision_number revs
      file_size := size
      has_file_data := true }
  (r, revs ++ [r])

/-- Model of `FileRevision.save` called on a row `r` that is already stored
in `revs` (models.py 90-96): the guard `if not self.revision_number` is
Python truthiness, so a stored number 0 is treated as unset and recomputed
over the whole table (which includes `r` itself), while a nonzero number is
kept.  Returns the revision number after the save. -/
def resaveRevision (revs : List FileRevisionRec) (r : FileRevisionRec) : Nat :=
  if r.revision_number = 0 then get_next_revision_number revs
  else r.revision_number

/-- Model of `RevisionManager.cleanup_old_revisions` (storage.py 152-179):
order descending; if no more rows than `keep_count`, do nothing and return 0;
otherwise delete the rows after the first `keep_count` (blob deletion is
modelled as always succeeding, so every old row is deleted and counted).
Returns the surviving table and `deleted_count`. -/
def cleanup_old_revisions (revs : List FileRevisionRec) (keep_count : Nat) :
    List FileRevisionRec × Nat :=
  let revisions := orderByRevisionDesc revs
  if revisions.length ≤ keep_count then
    (revs, 0)
  else
    let old_revisions := revisions.drop keep_count
    (revisions.take keep_count, old_revisions.length)

/-- Specification-side rendering of the allocation rule as the spec words it:
1 + the maximum existing revision number, or 0 when there are none.  Used
only to be compared with `get_next_revision_number`. -/
def nextRevisionNumberSpec (revs : List FileRevisionRec) : Nat :=
  if revs.isEmpty then 0
  else ((revs.map FileRevisionRec.revision_number).foldr max 0) + 1

theorem le_foldr_max {ns : List Nat} {x : Nat} (hx : x ∈ ns) :
    x ≤ ns.foldr max 0 := by
  induction ns with
  | nil => cases hx
  | cons n ns ih =>
      rcases List.mem_cons.mp hx with h | h
      · subst h; exact Nat.le_max_left _ _
      · exact Nat.le_trans (ih h) (Nat.le_max_right _ _)

theorem foldr_max_le {ns : List Nat} {m : Nat} (h : ∀ x ∈ ns, x ≤ m) :
    ns.foldr max 0 ≤ m := by
  induction ns with
  | nil => exact Nat.zero_le m
  | cons n ns ih =>
      exact max_le (h n (List.mem_cons_self n ns))
        (ih fun x hx => h x (List.mem_cons.mpr (Or.inr hx)))

theorem orderByRevisionDesc_head (revs : List FileRevisionRec)
    (hne : revs ≠ []) :
    ∃ h, (orderByRevisionDesc revs).head? = some h ∧ h ∈ revs ∧
      ∀ r ∈ revs, r.revision_number ≤ h.revision_number := by
  have hperm := List.perm_insertionSort revisionDescOrder revs
  have hsorted := List.sorted_insertionSort revisionDescOrder revs
  cases hs : orderByRevisionDesc revs with
  | nil =>
      exfalso
      apply hne
      rw [orderByRevisionDesc] at hs
      rw [hs] at hperm
      exact hperm.symm.eq_nil
  | cons h t =>
      refine ⟨h, rfl, ?_, ?_⟩
      · have : h ∈ orderByRevisionDesc revs := by rw [hs]; exact List.mem_cons_self h t
        exact (List.mem_insertionSort revisionDescOrder).mp this
      · intro r hr
        have hr' : r ∈ orderByRevisionDesc revs :=
          (List.mem_insertionSort revisionDescOrder).mpr hr
        rw [hs] at hr'
        rcases List.mem_cons.mp hr' with h1 | h1
        · subst h1; exact Nat.le_refl _
        · rw [orderByRevisionDesc] at hs
          have := List.rel_of_sorted_cons (hs ▸ hsorted) r h1
          exact this

theorem get_next_revision_number_eq_spec (revs : List FileRevisionRec) :
    get_next_revision_number revs = nextRevisionNumberSpec revs := by
  by_cases hne : revs = []
  · subst hne; rfl
  · obtain ⟨h, hhead, hmem, hmax⟩ := orderByRevisionDesc_head revs hne
    rw [nextRevisionNumberSpec, if_neg (by simpa [List.isEmpty_iff] using hne)]
    rw [get_next_revision_number, hhead]
    show h.revision_number + 1 = _
    have h1 : h.revision_number ≤ (revs.map FileRevisionRec.revision_number).foldr max 0 :=
      le_foldr_max (List.mem_map_of_mem FileRevisionRec.revision_number hmem)
    have h2 : (revs.map FileRevisionRec.revision_number).foldr max 0 ≤ h.revision_number := by
      apply foldr_max_le
      intro x hx
      rcases List.mem_map.mp hx with ⟨r, hr, rfl⟩
      exact hmax r hr
    omega

theorem get_next_gt_of_mem (revs : List FileRevisionRec) (r : FileRevisionRec)
    (hmem : r ∈ revs) :
    r.revision_number < get_next_revision_number revs := by
  have hne : revs ≠ [] := by intro h; subst h; cases hmem
  obtain ⟨h, hhead, _, hmax⟩ := orderByRevisionDesc_head revs hne
  rw [get_next_revision_number, hhead]
  exact Nat.lt_succ_of_le (hmax r hmem)

/-- C1: for every document, saving a new revision assigns it
revision_number equal to 1 + the maximum revision_number among the
document's existing revisions, or 0 if the document has no revisions yet:
the number computed by `FileRevision.save` / `get_next_revision_number`
(head of the descending ordering, plus one) coincides with the spec-side
`nextRevisionNumberSpec`. -/
theorem C1_next_revision_number_is_succ_max (revs : List FileRevisionRec)
    (size : Nat) :
    (saveNewRevision revs size).1.revision_number = nextRevisionNumberSpec revs :=
  get_next_revision_number_eq_spec revs

/-- A creation or deletion acting on one document's revision table.  The
state also records every revision number handed out so far, so reuse of a
number is visible in the trace. -/
inductive DocOp where
  | create (size : Nat)
  | deleteRev (n : Nat)
deriving Repr, DecidableEq

/-- Apply one operation: `create` is `FileRevision.objects.create` (which
runs `FileRevision.save` with an unset number), `deleteRev` is
`revision.delete()` for the revision numbered `n`. -/
def applyDocOp (st : List FileRevisionRec × List Nat) (op : DocOp) :
    List FileRevisionRec × List Nat :=
  match op with
  | .create size =>
      let (r, revs) := saveNewRevision st.1 size
      (revs, st.2 ++ [r.revision_number])
  | .deleteRev n =>
      (st.1.filter (fun r => r.revision_number != n), st.2)

/-- Run a sequence of operations on an initially empty document. -/
def runDocOps (ops : List DocOp) : List FileRevisionRec × List Nat :=
  ops.foldl applyDocOp ([], [])

/-- C2 (counterexample): the claim that a revision_number once assigned is
never assigned again, even after deletions, is false.  Create two revisions
(numbers 0 and 1), delete the revision numbered 1, create again: the code
computes next = max existing + 1 = 0 + 1 = 1, so the number 1 is assigned a
second time and the trace of assigned numbers is [0, 1, 1]. -/
theorem C2_counterexample_number_reused :
    (runDocOps [.create 5, .create 7, .deleteRev 1, .create 9]).2 = [0, 1, 1] ∧
    ¬ (runDocOps [.create 5, .create 7, .deleteRev 1, .create 9]).2.Nodup := by
  constructor
  · rfl
  · decide

/-- C2 (amended): a newly assigned revision_number is strictly greater than
the number of every revision currently stored for the document, so a number
is never reassigned while any revision with that number (or a higher one)
still exists; only deleting the highest-numbered revision can make its
number available again. -/
theorem C2_amended_no_reuse_while_max_alive (revs : List FileRevisionRec)
    (size : Nat) (r : FileRevisionRec) (hmem : r ∈ revs) :
    r.revision_number < (saveNewRevision revs size).1.revision_number :=
  get_next_gt_of_mem revs r hmem

/-- Witness for the amended C2 at a one-revision table. -/
theorem C2_amended_no_reuse_while_max_alive_witness :
    ({ revision_number := 4, file_size := 5, has_file_data := true } : FileRevisionRec) ∈
      [({ revision_number := 4, file_size := 5, has_file_data := true } : FileRevisionRec)] ∧
    (4 : Nat) <
      (saveNewRevision [{ revision_number := 4, file_size := 5, has_file_data := true }] 3).1.revision_number :=
  ⟨by decide,
   C2_amended_no_reuse_while_max_alive
     [{ revision_number := 4, file_size := 5, has_file_data := true }] 3
     { revision_number := 4, file_size := 5, has_file_data := true } (by decide)⟩

/-- C9: re-saving a stored revision whose revision_number is 0 does not
preserve its number: the guard `if not self.revision_number` treats 0 as
unset, so the save reassigns 1 + the maximum revision_number present for the
document (a nonzero value, hence a changed number), while a stored revision
with a nonzero number keeps its number across saves. -/
theorem C9_resave_zero_is_reassigned (revs : List FileRevisionRec)
    (r : FileRevisionRec) (hmem : r ∈ revs) :
    (r.revision_number = 0 →
      resaveRevision revs r =
        (revs.map FileRevisionRec.revision_number).foldr max 0 + 1 ∧
      resaveRevision revs r ≠ 0) ∧
    (r.revision_number ≠ 0 → resaveRevision revs r = r.revision_number) := by
  have hne : revs ≠ [] := by intro h; subst h; cases hmem
  constructor
  · intro h0
    rw [resaveRevision, if_pos h0, get_next_revision_number_eq_spec,
      nextRevisionNumberSpec, if_neg (by simpa [List.isEmpty_iff] using hne)]
    exact ⟨rfl, Nat.succ_ne_zero _⟩
  · intro h0
    rw [resaveRevision, if_neg h0]

/-- Witness for C9: a document with stored revisions numbered 0 and 3.
Re-saving the revision numbered 0 reassigns it 4 = 1 + 3; re-saving the
revision numbered 3 keeps 3. -/
theorem C9_resave_zero_is_reassigned_witness :
    (({ revision_number := 0, file_size := 5, has_file_data := true } : FileRevisionRec).revision_number = 0 →
      resaveRevision
        [{ revision_number := 0, file_size := 5, has_file_data := true },
         { revision_number := 3, file_size := 6, has_file_data := true }]
        { revision_number := 0, file_size := 5, has_file_data := true } =
        ([({ revision_number := 0, file_size := 5, has_file_data := true } : FileRevisionRec),
          { revision_number := 3, file_size := 6, has_file_data := true }].map
            FileRevisionRec.revision_number).foldr max 0 + 1 ∧
      resaveRevision
        [{ revision_number := 0, file_size := 5, has_file_data := true },
         { revision_number := 3, file_size := 6, has_file_data := true }]
        { revision_number := 0, file_size := 5, has_file_data := true } ≠ 0) ∧
    (({ revision_number := 0, file_size := 5, has_file_data := true } : FileRevisionRec).revision_number ≠ 0 →
      resaveRevision
        [{ revision_number := 0, file_size := 5, has_file_data := true },
         { revision_number := 3, file_size := 6, has_file_data := true }]
        { revision_number := 0, file_size := 5, has_file_data := true } =
        ({ revision_number := 0, file_size := 5, has_file_data := true } : FileRevisionRec).revision_number) :=
  C9_resave_zero_is_reassigned
    [{ revision_number := 0, file_size := 5, has_file_data := true },
     { revision_number := 3, file_size := 6, has_file_data := true }]
    { revision_number := 0, file_size := 5, has_file_data := true } (by decide)

theorem length_orderByRevisionDesc (revs : List FileRevisionRec) :
    (orderByRevisionDesc revs).length = revs.length :=
  List.length_insertionSort revisionDescOrder revs

/-- C6: retention keeps the keep_count revisions with the highest
revision_numbers and deletes the rest, returning the number deleted:
for every table, the deleted count is `length - keep_count` (0 when there
is nothing to delete), the survivors number `min keep_count length`, every
survivor is an original row, and every original row either survives or has
a revision_number at most that of every survivor.  In particular, on a
document with revisions numbered [0,1,2,3,4,5] and keep_count = 3 the code
deletes 3 revisions and leaves the revisions numbered 5, 4, 3 (descending
order), i.e. the set {3,4,5}. -/
theorem C6_cleanup_keeps_highest (revs : List FileRevisionRec) (keep_count : Nat) :
    ((cleanup_old_revisions revs keep_count).2 = revs.length - keep_count ∧
     (cleanup_old_revisions revs keep_count).1.length = min keep_count revs.length ∧
     (∀ a ∈ (cleanup_old_revisions revs keep_count).1, a ∈ revs) ∧
     (∀ a ∈ (cleanup_old_revisions revs keep_count).1, ∀ b ∈ revs,
        b ∈ (cleanup_old_revisions revs keep_count).1 ∨
        b.revision_number ≤ a.revision_number)) ∧
    ((cleanup_old_revisions
        [{ revision_number := 0, file_size := 1, has_file_data := true },
         { revision_number := 1, file_size := 1, has_file_data := true },
         { revision_number := 2, file_size := 1, has_file_data := true },
         { revision_number := 3, file_size := 1, has_file_data := true },
         { revision_number := 4, file_size := 1, has_file_data := true },
         { revision_number := 5, file_size := 1, has_file_data := true }] 3).1.map
        FileRevisionRec.revision_number = [5, 4, 3] ∧
     (cleanup_old_revisions
        [{ revision_number := 0, file_size := 1, has_file_data := true },
         { revision_number := 1, file_size := 1, has_file_data := true },
         { revision_number := 2, file_size := 1, has_file_data := true },
         { revision_number := 3, file_size := 1, has_file_data := true },
         { revision_number := 4, file_size := 1, has_file_data := true },
         { revision_number := 5, file_size := 1, has_file_data := true }] 3).2 = 3) := by
  have hlen := length_orderByRevisionDesc revs
  have hsorted := List.sorted_insertionSort revisionDescOrder revs
  constructor
  · rw [cleanup_old_revisions]
    by_cases hc : (orderByRevisionDesc revs).length ≤ keep_count
    · rw [if_pos hc]
      refine ⟨by omega, by simp; omega, fun a ha => ha, fun a _ b hb => Or.inl hb⟩
    · rw [if_neg hc]
      refine ⟨by show (List.drop keep_count (orderByRevisionDesc revs)).length = _
                 rw [List.length_drop, hlen],
              by show (List.take keep_count (orderByRevisionDesc revs)).length = _
                 rw [List.length_take, hlen], ?_, ?_⟩
      · intro a ha
        exact (List.mem_insertionSort revisionDescOrder).mp
          (List.take_subset keep_count _ ha)
      · intro a ha b hb
        have hb' : b ∈ orderByRevisionDesc revs :=
          (List.mem_insertionSort revisionDescOrder).mpr hb
        rw [← List.take_append_drop keep_count (orderByRevisionDesc revs)] at hb'
        rcases List.mem_append.mp hb' with h1 | h1
        · exact Or.inl h1
        · exact Or.inr (List.Sorted.rel_of_mem_take_of_mem_drop hsorted ha h1)
  · constructor
    · rfl
    · rfl

/-- C7: retention is idempotent: for every document table and every
keep_count, a second consecutive run with the same keep_count deletes zero
revisions and returns 0, because the first run leaves at most keep_count
rows. -/
theorem C7_cleanup_idempotent (revs : List FileRevisionRec) (keep_count : Nat) :
    (cleanup_old_revisions (cleanup_old_revisions revs keep_count).1 keep_count).2 = 0 := by
  have hlen := length_orderByRevisionDesc revs
  have hsurv : (cleanup_old_revisions revs keep_count).1.length ≤ keep_count ∨
      (cleanup_old_revisions revs keep_count).1 = revs ∧ revs.length ≤ keep_count := by
    rw [cleanup_old_revisions]
    by_cases hc : (orderByRevisionDesc revs).length ≤ keep_count
    · rw [if_pos hc]
      exact Or.inr ⟨rfl, by omega⟩
    · rw [if_neg hc]
      refine Or.inl ?_
      show (List.take keep_count (orderByRevisionDesc revs)).length ≤ keep_count
      rw [List.length_take]
      omega
  have hle : (cleanup_old_revisions revs keep_count).1.length ≤ keep_count := by
    rcases hsurv with h | ⟨heq, hlt⟩
    · exact h
    · rw [heq]; exact hlt
  rw [cleanup_old_revisions]
  rw [if_pos (by rw [length_orderByRevisionDesc]; exact hle)]

/-- A `UserProfile` row (authentication/models.py 7-57): the byte counters
are BigIntegerField columns holding exact integers, modelled as `Int`. -/
structure UserProfileRec where
  storage_limit : Int
  storage_used : Int
deriving Repr, DecidableEq

/-- A `FileDocument` row together with its revision rows. -/
structure DocumentRec where
  url : String
  name : String
  revisions : List FileRevisionRec
deriving Repr, DecidableEq

/-- One user: `profile = none` models a user for which
`hasattr(user, 'profile')` is false; `file_documents` is the user's
document table. -/
structure UserState where
  profile : Option UserProfileRec
  file_documents : List DocumentRec
deriving Repr, DecidableEq

/-- Model of `UserProfile.can_upload_file` (authentication/models.py 55-57):
`(storage_used + file_size) <= storage_limit`. -/
def can_upload_file (p : UserProfileRec) (file_size : Int) : Bool :=
  p.storage_used + file_size ≤ p.storage_limit

/-- Model of `utils.calculate_user_storage_usage` (utils.py 54-66): sum of
`revision.file_size` over every revision of every document of the user whose
`file_data` is truthy. -/
def calculate_user_storage_usage (u : UserState) : Int :=
  (u.file_documents.map fun d =>
      ((d.revisions.filter (fun r => r.has_file_data)).map
          fun r => (r.file_size : Int)).sum).sum

/-- Model of `utils.update_user_storage_usage` (utils.py 69-78): if the user
has a profile, store the recalculated usage into it and return it, else
return 0. -/
def update_user_storage_usage (u : UserState) : UserState × Int :=
  match u.profile with
  | some p =>
      let storage_used := calculate_user_storage_usage u
      ({ u with profile := some { p with storage_used := storage_used } },
       storage_used)
  | none => (u, 0)

/-- Model of `StorageQuotaManager.update_user_quota` (storage.py 278-297),
the reconciliation recompute: sum every revision's file_size (this variant
has no file_data check), store it in the profile and return it. -/
def update_user_quota (u : UserState) : UserState × Int :=
  match u.profile with
  | none => (u, 0)
  | some p =>
      let total_usage :=
        (u.file_documents.map fun d =>
            (d.revisions.map fun r => (r.file_size : Int)).sum).sum
      ({ u with profile := some { p with storage_used := total_usage } },
       total_usage)

/-- Quota status as returned by `StorageQuotaManager.get_quota_status`
(storage.py 299-327).  For a user without a profile, `available` is
float('inf'), modelled as `⊤`; `percentage` is the exact value of the
division (the claims only use the no-profile branch, whose 0 is an exact
literal in the source).  The formatted string fields are omitted. -/
structure QuotaStatus where
  has_quota : Bool
  usage : Int
  limit : Int
  percentage : ℚ
  available : WithTop Int
deriving Repr, DecidableEq

/-- Model of `StorageQuotaManager.get_quota_status` (storage.py 299-327). -/
def get_quota_status (u : UserState) : QuotaStatus :=
  match u.profile with
  | none =>
      { has_quota := false, usage := 0, limit := 0, percentage := 0,
        available := ⊤ }
  | some p =>
      { has_quota := true
        usage := p.storage_used
        limit := p.storage_limit
        percentage :=
          if p.storage_limit > 0 then
            (p.storage_used : ℚ) / (p.storage_limit : ℚ) * 100
          else 0
        available := ((max 0 (p.storage_limit - p.storage_used) : Int) : WithTop Int) }

/-- Model of `StorageQuotaManager.check_quota_available` (storage.py
260-276): returns `(allowed, bytes)` where the second component is the
remaining space on rejection and the space left after the upload on
acceptance (0 when there is no profile). -/
def check_quota_available (u : UserState) (additional_size : Int) : Bool × Int :=
  match u.profile with
  | none => (true, 0)
  | some profile =>
      let current_usage := profile.storage_used
      let quota_limit := profile.storage_limit
      if current_usage + additional_size > quota_limit then
        (false, quota_limit - current_usage)
      else
        (true, quota_limit - current_usage - additional_size)

/-- Model of `utils.check_user_storage_limit` (utils.py 81-92). -/
def check_user_storage_limit (u : UserState) (additional_size : Int) : Bool × Int :=
  match u.profile with
  | some p =>
      if p.storage_used + additional_size > p.storage_limit then
        (false, p.storage_limit - p.storage_used)
      else (true, 0)
  | none => (true, 0)

/-- Model of `validators.validate_user_storage_limit` (validators.py
209-223) in terms of the `hasattr(user, 'profile')` lookup result: raises
ValidationError when the new total would exceed the limit; the error
carries the available_space value the message reports (the message renders
it in megabytes). -/
def validate_user_storage_limit_profile (profile : Option UserProfileRec)
    (additional_size : Int) : Except Int Unit :=
  match profile with
  | some p =>
      if p.storage_used + additional_size > p.storage_limit then
        Except.error (p.storage_limit - p.storage_used)
      else Except.ok ()
  | none => Except.ok ()

/-- Model of `validators.validate_user_storage_limit` applied to a user. -/
def validate_user_storage_limit (u : UserState) (additional_size : Int) :
    Except Int Unit :=
  validate_user_storage_limit_profile u.profile additional_size

/-- Model of `utils.create_file_document` (utils.py 117-143) invoked with
its declared parameter order: get-or-create the document at (owner, url),
update a differing display name, create a new revision (running
`FileRevision.save`, which assigns the next number and records the size of
the uploaded bytes), then recompute the owner's storage usage. -/
def create_file_document (u : UserState) (url name : String) (size : Nat) :
    UserState :=
  let u' :=
    if u.file_documents.any (fun d => d.url == url) then
      { u with file_documents := u.file_documents.map fun d =>
          if d.url == url then
            { d with name := name,
                     revisions := (saveNewRevision d.revisions size).2 }
          else d }
    else
      let newDoc : DocumentRec :=
        { url := url, name := name, revisions := (saveNewRevision [] size).2 }
      { u with file_documents := u.file_documents ++ [newDoc] }
  (update_user_storage_usage u').1

/-- Model of `utils.delete_file_revision` (utils.py 146-161) applied to the
revision of the document at `url` numbered `n`: the blob and row are
deleted, then the owner's usage is recomputed. -/
def delete_file_revision (u : UserState) (url : String) (n : Nat) : UserState :=
  let u' := { u with file_documents := u.file_documents.map fun d =>
      if d.url == url then
        { d with revisions := d.revisions.filter fun r => r.revision_number != n }
      else d }
  (update_user_storage_usage u').1

/-- Model of `utils.delete_file_document` (utils.py 164-180): the document
and all its revisions are deleted, then the owner's usage is recomputed. -/
def delete_file_document (u : UserState) (url : String) : UserState :=
  let u' := { u with file_documents :=
      u.file_documents.filter fun d => d.url != url }
  (update_user_storage_usage u').1

/-- An upload or deletion by one user (the "sequence of uploads and
deletions" of the claims). -/
inductive UserOp where
  | upload (url name : String) (size : Nat)
  | deleteRevision (url : String) (n : Nat)
  | deleteDocument (url : String)
deriving Repr, DecidableEq

/-- Apply one user operation through the corresponding source function. -/
def applyUserOp (u : UserState) (op : UserOp) : UserState :=
  match op with
  | .upload url name size => create_file_document u url name size
  | .deleteRevision url n => delete_file_revision u url n
  | .deleteDocument url => delete_file_document u url

/-- A fresh user with a quota profile, no files and a zero counter. -/
def initUser (limit : Int) : UserState :=
  { profile := some { storage_limit := limit, storage_used := 0 },
    file_documents := [] }

/-- Run a sequence of uploads and deletions from the fresh state. -/
def runUserOps (limit : Int) (ops : List UserOp) : UserState :=
  ops.foldl applyUserOp (initUser limit)

/-- Every stored revision has a truthy file_data (true for every revision
created by an upload). -/
def allRevisionsHaveFileData (u : UserState) : Prop :=
  ∀ d ∈ u.file_documents, ∀ r ∈ d.revisions, r.has_file_data = true

/-- Invariant tying the cached counter to the table contents. -/
def quotaCacheInv (u : UserState) : Prop :=
  u.profile.isSome ∧
  (∀ p, u.profile = some p → p.storage_used = calculate_user_storage_usage u) ∧
  allRevisionsHaveFileData u

theorem update_establishes_inv (u' : UserState) (hp : u'.profile.isSome)
    (hfd : allRevisionsHaveFileData u') :
    quotaCacheInv (update_user_storage_usage u').1 := by
  obtain ⟨prof, docs⟩ := u'
  cases prof with
  | none => simp at hp
  | some p =>
      refine ⟨rfl, ?_, hfd⟩
      intro q hq
      have : q = { p with storage_used := calculate_user_storage_usage ⟨some p, docs⟩ } := by
        exact Option.some.inj hq.symm
      subst this
      rfl

theorem saveNewRevision_file_data (revs : List FileRevisionRec) (size : Nat) :
    (saveNewRevision revs size).1.has_file_data = true := rfl

theorem create_file_document_inv (u : UserState) (url name : String)
    (size : Nat) (hp : u.profile.isSome) (hfd : allRevisionsHaveFileData u) :
    quotaCacheInv (create_file_document u url name size) := by
  rw [create_file_document]
  apply update_establishes_inv
  · split <;> exact hp
  · split
    · intro d' hd' r hr
      rcases List.mem_map.mp hd' with ⟨d, hd, rfl⟩
      by_cases hurl : (d.url == url) = true
      · rw [if_pos hurl] at hr
        simp only [saveNewRevision] at hr
        rcases List.mem_append.mp hr with h1 | h1
        · exact hfd d hd r h1
        · rcases List.mem_singleton.mp h1 with rfl
          rfl
      · rw [if_neg hurl] at hr
        exact hfd d hd r hr
    · intro d' hd' r hr
      rcases List.mem_append.mp hd' with h1 | h1
      · exact hfd d' h1 r hr
      · rcases List.mem_singleton.mp h1 with rfl
        simp only [saveNewRevision] at hr
        rcases List.mem_append.mp hr with h2 | h2
        · cases h2
        · rcases List.mem_singleton.mp h2 with rfl
          rfl

theorem delete_file_revision_inv (u : UserState) (url : String) (n : Nat)
    (hp : u.profile.isSome) (hfd : allRevisionsHaveFileData u) :
    quotaCacheInv (delete_file_revision u url n) := by
  rw [delete_file_revision]
  apply update_establishes_inv
  · exact hp
  · intro d' hd' r hr
    rcases List.mem_map.mp hd' with ⟨d, hd, rfl⟩
    by_cases hurl : (d.url == url) = true
    · rw [if_pos hurl] at hr
      exact hfd d hd r (List.mem_of_mem_filter hr)
    · rw [if_neg hurl] at hr
      exact hfd d hd r hr

theorem delete_file_document_inv (u : UserState) (url : String)
    (hp : u.profile.isSome) (hfd : allRevisionsHaveFileData u) :
    quotaCacheInv (delete_file_document u url) := by
  rw [delete_file_document]
  apply update_establishes_inv
  · exact hp
  · intro d' hd' r hr
    exact hfd d' (List.mem_of_mem_filter hd') r hr

theorem applyUserOp_inv (u : UserState) (op : UserOp)
    (hp : u.profile.isSome) (hfd : allRevisionsHaveFileData u) :
    quotaCacheInv (applyUserOp u op) := by
  cases op with
  | upload url name size => exact create_file_document_inv u url name size hp hfd
  | deleteRevision url n => exact delete_file_revision_inv u url n hp hfd
  | deleteDocument url => exact delete_file_document_inv u url hp hfd

theorem foldl_applyUserOp_inv (ops : List UserOp) :
    ∀ u : UserState, quotaCacheInv u → quotaCacheInv (ops.foldl applyUserOp u) := by
  induction ops with
  | nil => intro u h; exact h
  | cons op ops ih =>
      intro u h
      exact ih (applyUserOp u op) (applyUserOp_inv u op h.1 h.2.2)

theorem initUser_inv (limit : Int) : quotaCacheInv (initUser limit) := by
  refine ⟨rfl, ?_, ?_⟩
  · intro p hp
    cases Option.some.inj hp
    rfl
  · intro d hd
    cases hd

theorem get_quota_status_usage (u : UserState) (p : UserProfileRec)
    (h : u.profile = some p) :
    (get_quota_status u).usage = p.storage_used := by
  obtain ⟨prof, docs⟩ := u
  cases prof with
  | none => exact absurd h (by simp)
  | some q =>
      have hq : q = p := Option.some.inj h
      subst hq
      rfl

theorem update_user_quota_val (u : UserState) (p : UserProfileRec)
    (h : u.profile = some p) :
    (update_user_quota u).2 =
      (u.file_documents.map fun d =>
          (d.revisions.map fun r => (r.file_size : Int)).sum).sum := by
  obtain ⟨prof, docs⟩ := u
  cases prof with
  | none => exact absurd h (by simp)
  | some q => rfl

theorem calculate_eq_total (u : UserState) (hfd : allRevisionsHaveFileData u) :
    calculate_user_storage_usage u =
      (u.file_documents.map fun d =>
          (d.revisions.map fun r => (r.file_size : Int)).sum).sum := by
  rw [calculate_user_storage_usage]
  congr 1
  apply List.map_congr_left
  intro d hd
  congr 2
  exact List.filter_eq_self.mpr (hfd d hd)

/-- C3: after every sequence of uploads and deletions by a user with a
quota profile, the cached storage_used (the value `get_quota_status`
reports) equals the sum of the file sizes of the user's current non-deleted
revisions (`calculate_user_storage_usage`) and equals the reconciliation
recompute result (`update_user_quota`). -/
theorem C3_cached_usage_equals_recompute (limit : Int) (ops : List UserOp) :
    (get_quota_status (runUserOps limit ops)).usage =
      calculate_user_storage_usage (runUserOps limit ops) ∧
    (get_quota_status (runUserOps limit ops)).usage =
      (update_user_quota (runUserOps limit ops)).2 := by
  obtain ⟨hp, hused, hfd⟩ :=
    foldl_applyUserOp_inv ops (initUser limit) (initUser_inv limit)
  obtain ⟨p, hp'⟩ := Option.isSome_iff_exists.mp hp
  rw [runUserOps]
  have h1 : (get_quota_status (ops.foldl applyUserOp (initUser limit))).usage =
      calculate_user_storage_usage (ops.foldl applyUserOp (initUser limit)) := by
    rw [get_quota_status_usage _ p hp']
    exact hused p hp'
  refine ⟨h1, ?_⟩
  rw [h1, update_user_quota_val _ p hp']
  exact calculate_eq_total _ hfd

/-- An uploaded file as the validators see it: filename, byte count, the
content type the client declared (if any) and the leading bytes of the
content (what `file.read(16)` returns). -/
structure UploadedFile where
  name : String
  size : Nat
  content_type : Option String
  header : List Nat
deriving Repr, DecidableEq

/-- Model of `os.path.splitext`: split a filename into root and extension
at the last dot, treating a dot-only root (leading-dot names such as
".txt") as having no extension. -/
def splitext (filename : String) : String × String :=
  let cs := filename.toList
  let extChars := cs.reverse.takeWhile (fun c => c != '.')
  if extChars.length == cs.length then (filename, "")
  else
    let root := cs.take (cs.length - extChars.length - 1)
    if root.all (fun c => c == '.') then (filename, "")
    else (String.mk root, String.mk ('.' :: extChars.reverse))

/-- Lower-casing of a filename, character by character (`str.lower` on the
ASCII names the validators deal in). -/
def lowerStr (s : String) : String :=
  String.mk (s.toList.map Char.toLower)

/-- Model of `str.lstrip('.')`. -/
def lstripDots (s : String) : String :=
  String.mk (s.toList.dropWhile (fun c => c == '.'))

/-- Model of `os.path.basename` for the slash-separated names uploads use. -/
def basename (s : String) : String :=
  String.mk (s.toList.reverse.takeWhile (fun c => c != '/')).reverse

/-- Substring test used to model the regular-expression searches of
`validate_url_path`. -/
def listContainsSub (sub : List Char) : List Char → Bool
  | [] => sub.isEmpty
  | c :: rest => (sub.isPrefixOf (c :: rest)) || listContainsSub sub rest

/-- Outcome of one failed validator from validators.py; `quotaExceeded`
carries the available-space byte count that the error message reports. -/
inductive ValidationFailure where
  | fileTooLarge
  | emptyFile
  | badExtension
  | badFilename
  | badContentType
  | executableContent
  | badUrlPath
  | quotaExceeded (available : Int)
deriving Repr, DecidableEq

/-- Model of `validators.validate_file_size` (validators.py 11-24):
reject above `max_size_mb` megabytes and reject empty files. -/
def validate_file_size (f : UploadedFile) (max_size_mb : Nat := 10) :
    Except ValidationFailure Unit :=
  let max_size := max_size_mb * 1024 * 1024
  if f.size > max_size then Except.error .fileTooLarge
  else if f.size == 0 then Except.error .emptyFile
  else Except.ok ()

/-- Extension allowlist of `validators.validate_file_extension`
(validators.py 31-40). -/
def allowed_extensions : List String :=
  ["pdf", "doc", "docx", "txt", "rtf",
   "jpg", "jpeg", "png", "gif", "bmp", "tiff",
   "zip", "rar", "7z", "tar", "gz",
   "csv", "xlsx", "xls", "ods",
   "ppt", "pptx", "odp",
   "mp4", "avi", "mov", "wmv", "flv",
   "mp3", "wav", "flac", "ogg"]

/-- Model of `validators.validate_file_extension` (validators.py 27-49). -/
def validate_file_extension (f : UploadedFile) : Except ValidationFailure Unit :=
  let ext := lstripDots (lowerStr (splitext f.name).2)
  if allowed_extensions.contains ext then Except.ok ()
  else Except.error .badExtension

/-- Reserved device names of `validators.validate_filename`
(validators.py 65-69). -/
def dangerous_names : List String :=
  ["con", "prn", "aux", "nul",
   "com1", "com2", "com3", "com4", "com5", "com6", "com7", "com8", "com9",
   "lpt1", "lpt2", "lpt3", "lpt4", "lpt5", "lpt6", "lpt7", "lpt8", "lpt9"]

/-- Model of `validators.validate_filename` (validators.py 52-83): reject
empty or whitespace-only names, names over 255 characters, reserved device
names, names holding filesystem-unsafe characters, and control
characters. -/
def validate_filename (filename : String) : Except ValidationFailure Unit :=
  if filename.toList.all Char.isWhitespace then Except.error .badFilename
  else if filename.toList.length > 255 then Except.error .badFilename
  else if dangerous_names.contains (lowerStr (splitext filename).1) then
    Except.error .badFilename
  else if filename.toList.any (fun c =>
      ['<', '>', ':', '"', '|', '?', '*', '\\', '/'].contains c) then
    Except.error .badFilename
  else if filename.toList.any (fun c => c.toNat < 32) then
    Except.error .badFilename
  else Except.ok ()

/-- Content-type allowlist of `validators.validate_content_type`
(validators.py 134-173). -/
def allowed_content_types : List String :=
  ["application/pdf", "application/msword",
   "application/vnd.openxmlformats-officedocument.wordprocessingml.document",
   "text/plain", "text/rtf",
   "image/jpeg", "image/png", "image/gif", "image/bmp", "image/tiff",
   "application/zip", "application/x-rar-compressed",
   "application/x-7z-compressed",
   "application/vnd.ms-excel",
   "application/vnd.openxmlformats-officedocument.spreadsheetml.sheet",
   "text/csv",
   "application/vnd.ms-powerpoint",
   "application/vnd.openxmlformats-officedocument.presentationml.presentation",
   "video/mp4", "video/avi", "video/quicktime",
   "audio/mpeg", "audio/wav", "audio/flac"]

/-- Model of `validators.validate_content_type` (validators.py 130-181):
only rejects when a content type is present and not in the allowlist. -/
def validate_content_type (f : UploadedFile) : Except ValidationFailure Unit :=
  match f.content_type with
  | some ct =>
      if allowed_content_types.contains ct then Except.ok ()
      else Except.error .badContentType
  | none => Except.ok ()

/-- Model of `validators.validate_file_content` (validators.py 184-206):
reject an empty read and the PE ("MZ") and ELF executable signatures. -/
def validate_file_content (f : UploadedFile) : Except ValidationFailure Unit :=
  let header := f.header.take 16
  if header.length == 0 then Except.error .emptyFile
  else if [0x4d, 0x5a].isPrefixOf header then Except.error .executableContent
  else if [0x7f, 0x45, 0x4c, 0x46].isPrefixOf header then
    Except.error .executableContent
  else Except.ok ()

/-- Reserved path roots of `validators.validate_url_path`
(validators.py 120-123). -/
def reserved_paths : List String :=
  ["/admin", "/api", "/static", "/media", "/api-auth", "/docs", "/swagger"]

/-- Model of `validators.validate_url_path` (validators.py 86-127). -/
def validate_url_path (url_path : String) : Except ValidationFailure Unit :=
  let cs := url_path.toList
  if cs.all Char.isWhitespace then Except.error .badUrlPath
  else if !(cs.head? == some '/') then Except.error .badUrlPath
  else if cs.length > 1 && cs.getLast? == some '/' then Except.error .badUrlPath
  else if cs.length > 500 then Except.error .badUrlPath
  else if listContainsSub ['.', '.', '/'] cs then Except.error .badUrlPath
  else if listContainsSub ['/', '.', '.'] cs then Except.error .badUrlPath
  else if listContainsSub ['/', '/'] cs then Except.error .badUrlPath
  else if cs.any (fun c => c.toNat < 32) then Except.error .badUrlPath
  else if cs.any (fun c => ['<', '>', '"', '|', '?', '*'].contains c) then
    Except.error .badUrlPath
  else if reserved_paths.any (fun r =>
      (r ++ "/").toList.isPrefixOf cs || url_path == r) then
    Except.error .badUrlPath
  else Except.ok ()

/-- Model of `validators.validate_file_upload` (validators.py 226-244): the
full pre-write validation chain, in source order.  Both views pass the
authenticated request user, modelled by its `hasattr`-style optional
profile. -/
def validate_file_upload (f : UploadedFile) (user_profile : Option UserProfileRec)
    (url_path : Option String) : Except ValidationFailure Unit := do
  validate_file_size f
  validate_file_extension f
  validate_filename f.name
  validate_content_type f
  validate_file_content f
  match url_path with
  | some u => validate_url_path u
  | none => Except.ok ()
  match validate_user_storage_limit_profile user_profile (f.size : Int) with
  | Except.error avail => Except.error (.quotaExceeded avail)
  | Except.ok _ => Except.ok ()

/-- C4: for a user with a quota profile, all three quota gates admit an
upload exactly when storage_used + upload_size <= storage_limit over exact
integers, so a total exactly equal to the limit is allowed and a strictly
greater one is rejected. -/
theorem C4_quota_boundary_inclusive (u : UserState) (p : UserProfileRec)
    (size : Int) (h : u.profile = some p) :
    (can_upload_file p size = true ↔
      p.storage_used + size ≤ p.storage_limit) ∧
    ((check_quota_available u size).1 = true ↔
      p.storage_used + size ≤ p.storage_limit) ∧
    (validate_user_storage_limit u size = Except.ok () ↔
      p.storage_used + size ≤ p.storage_limit) := by
  obtain ⟨prof, docs⟩ := u
  cases prof with
  | none => exact absurd h (by simp)
  | some q =>
      have hq : q = p := Option.some.inj h
      subst hq
      refine ⟨?_, ?_, ?_⟩
      · rw [can_upload_file]
        exact decide_eq_true_iff
      · show ((if q.storage_used + size > q.storage_limit then
            (false, q.storage_limit - q.storage_used)
          else (true, q.storage_limit - q.storage_used - size)).1 = true) ↔ _
        constructor
        · intro h1
          by_contra h2
          rw [if_pos (by omega)] at h1
          exact Bool.false_ne_true h1
        · intro h1
          rw [if_neg (by omega)]
      · show ((if q.storage_used + size > q.storage_limit then
            Except.error (q.storage_limit - q.storage_used)
           else Except.ok ()) = Except.ok ()) ↔ _
        constructor
        · intro h1
          by_contra h2
          rw [if_pos (by omega)] at h1
          exact absurd h1 (by simp)
        · intro h1
          rw [if_neg (by omega)]

/-- Witness for C4 at the exact boundary: used 800, limit 1000, upload of
size 200 makes the total exactly 1000, and all three gates admit it. -/
theorem C4_quota_boundary_inclusive_witness :
    (can_upload_file { storage_limit := 1000, storage_used := 800 } 200 = true ↔
      (800 : Int) + 200 ≤ 1000) ∧
    ((check_quota_available
        { profile := some { storage_limit := 1000, storage_used := 800 },
          file_documents := [] } 200).1 = true ↔
      (800 : Int) + 200 ≤ 1000) ∧
    (validate_user_storage_limit
        { profile := some { storage_limit := 1000, storage_used := 800 },
          file_documents := [] } 200 = Except.ok () ↔
      (800 : Int) + 200 ≤ 1000) :=
  C4_quota_boundary_inclusive
    { profile := some { storage_limit := 1000, storage_used := 800 },
      file_documents := [] }
    { storage_limit := 1000, storage_used := 800 } 200 rfl

/-- C10: for a user without a quota profile, every quota check admits the
upload whatever its size, and the quota status reports no quota with usage
0, limit 0, percentage 0 and unlimited availability (float('inf'),
modelled as ⊤). -/
theorem C10_no_profile_unlimited (u : UserState) (size : Int)
    (h : u.profile = none) :
    check_quota_available u size = (true, 0) ∧
    check_user_storage_limit u size = (true, 0) ∧
    get_quota_status u =
      { has_quota := false, usage := 0, limit := 0, percentage := 0,
        available := ⊤ } := by
  obtain ⟨prof, docs⟩ := u
  cases prof with
  | none => exact ⟨rfl, rfl, rfl⟩
  | some q => exact absurd h (by simp)

/-- Witness for C10 on a profile-less user and an arbitrary large size. -/
theorem C10_no_profile_unlimited_witness :
    check_quota_available { profile := none, file_documents := [] } 123456789 =
      (true, 0) ∧
    check_user_storage_limit { profile := none, file_documents := [] } 123456789 =
      (true, 0) ∧
    get_quota_status { profile := none, file_documents := [] } =
      { has_quota := false, usage := 0, limit := 0, percentage := 0,
        available := ⊤ } :=
  C10_no_profile_unlimited { profile := none, file_documents := [] } 123456789 rfl

/-- Response of the revision-upload endpoint, restricted to the status code
and, for a quota rejection, the available-space figure the error message
reports. -/
structure PutResponse where
  status : Nat
  quota_available : Option Int
deriving Repr, DecidableEq

/-- Model of `FileDetailView.put` (views.py 190-227), the upload of a new
revision of the existing document at `url`: the whole validator chain
(including the storage-limit check) runs before any blob write, so a
ValidationError leaves the state untouched and answers 400; otherwise
`FileRevision.objects.create` runs `FileRevision.save` and the owner's
usage is recomputed, answering 200. -/
def fileDetailView_put (u : UserState) (url : String) (f : UploadedFile) :
    UserState × PutResponse :=
  if u.file_documents.any (fun d => d.url == url) then
    match validate_file_upload f u.profile none with
    | Except.error e =>
        (u, { status := 400,
              quota_available :=
                match e with
                | .quotaExceeded avail => some avail
                | _ => none })
    | Except.ok _ =>
        let u' := { u with file_documents := u.file_documents.map fun d =>
            if d.url == url then
              { d with revisions := (saveNewRevision d.revisions f.size).2 }
            else d }
        ((update_user_storage_usage u').1, { status := 200, quota_available := none })
  else (u, { status := 404, quota_available := none })

/-- C5 scenario: the user's starting state, with limit 1000 and one stored
800-byte revision backing the cached usage of 800. -/
def c5_user0 : UserState :=
  { profile := some { storage_limit := 1000, storage_used := 800 },
    file_documents :=
      [{ url := "/a.txt", name := "a.txt",
         revisions := [{ revision_number := 0, file_size := 800,
                         has_file_data := true }] }] }

/-- C5 scenario: the accepted 150-byte upload. -/
def c5_file1 : UploadedFile :=
  { name := "a.txt", size := 150, content_type := some "text/plain",
    header := [116, 101, 120, 116] }

/-- C5 scenario: the rejected 100-byte upload. -/
def c5_file2 : UploadedFile :=
  { name := "a.txt", size := 100, content_type := some "text/plain",
    header := [116, 101, 120, 116] }

/-- C5: with limit 1000 and used 800, a 150-byte upload is accepted and the
cached usage becomes 950; the following 100-byte upload is rejected with a
quota error reporting 50 available bytes, the rejection happens before any
write (the returned state is exactly the pre-request state, so no revision
is added), and the cached usage stays 950. -/
theorem C5_quota_scenario :
    (fileDetailView_put c5_user0 "/a.txt" c5_file1).2.status = 200 ∧
    (get_quota_status (fileDetailView_put c5_user0 "/a.txt" c5_file1).1).usage = 950 ∧
    (fileDetailView_put (fileDetailView_put c5_user0 "/a.txt" c5_file1).1
        "/a.txt" c5_file2).2.status = 400 ∧
    (fileDetailView_put (fileDetailView_put c5_user0 "/a.txt" c5_file1).1
        "/a.txt" c5_file2).2.quota_available = some 50 ∧
    (fileDetailView_put (fileDetailView_put c5_user0 "/a.txt" c5_file1).1
        "/a.txt" c5_file2).1 =
      (fileDetailView_put c5_user0 "/a.txt" c5_file1).1 ∧
    (get_quota_status (fileDetailView_put (fileDetailView_put c5_user0 "/a.txt" c5_file1).1
        "/a.txt" c5_file2).1).usage = 950 := by
  refine ⟨?_, ?_, ?_, ?_, ?_, ?_⟩ <;> decide

/-- A Python value as it flows through `FileListCreateView.post` and
`utils.create_file_document`: a string, an uploaded file object, or None. -/
inductive PyVal where
  | pstr (s : String)
  | pfile (f : UploadedFile)
  | pnone
deriving Repr, DecidableEq

/-- A `FileDocument` row as the dynamically-typed call path stores it: the
url and name columns receive whatever Python values the call supplied. -/
structure PyDocumentRec where
  url : PyVal
  name : PyVal
  revisions : List FileRevisionRec
deriving Repr, DecidableEq

/-- The user state seen by the POST endpoint. -/
structure PyUserState where
  profile : Option UserProfileRec
  file_documents : List PyDocumentRec
deriving Repr, DecidableEq

/-- Model of `utils.calculate_user_storage_usage` over the
dynamically-typed document rows (same computation as
`calculate_user_storage_usage`). -/
def py_calculate_user_storage_usage (u : PyUserState) : Int :=
  (u.file_documents.map fun d =>
      ((d.revisions.filter (fun r => r.has_file_data)).map
          fun r => (r.file_size : Int)).sum).sum

/-- Model of `utils.update_user_storage_usage` over the dynamically-typed
document rows. -/
def py_update_user_storage_usage (u : PyUserState) : PyUserState :=
  match u.profile with
  | some p =>
      let p' := { p with storage_used := py_calculate_user_storage_usage u }
      { u with profile := some p' }
  | none => u

/-- Model of `utils.create_file_document` (utils.py 117-143) as the Python
callable `create_file_document(user, url, name, file_obj)`, applied to
whatever values arrive in those positions.  `get_or_create(owner, url=url,
defaults={'name': name})` runs first and persists a document row keyed by
the `url` value; the display name is updated when it differs.  The revision
create then evaluates `get_file_mime_type(file_obj.name)` for its
content_type argument: the `.name` attribute access raises AttributeError
unless `file_obj` is an uploaded file, and in that case no revision row is
created and the usage is not recomputed.  Returns the state after whatever
steps completed, plus the outcome. -/
def create_file_document_call (u : PyUserState) (url name file_obj : PyVal) :
    PyUserState × Except String Unit :=
  let u1 :=
    if u.file_documents.any (fun d => d.url == url) then
      { u with file_documents := u.file_documents.map fun d =>
          if d.url == url then { d with name := name } else d }
    else
      let newDoc : PyDocumentRec := { url := url, name := name, revisions := [] }
      { u with file_documents := u.file_documents ++ [newDoc] }
  match file_obj with
  | .pfile f =>
      let u2 := { u1 with file_documents := u1.file_documents.map fun d =>
          if d.url == url then
            { d with revisions := (saveNewRevision d.revisions f.size).2 }
          else d }
      (py_update_user_storage_usage u2, Except.ok ())
  | .pstr _ => (u1, Except.error "AttributeError")
  | .pnone => (u1, Except.error "AttributeError")

/-- An upload request as `FileListCreateView.post` receives it: optional
url, optional display name, and the uploaded file. -/
structure UploadRequest where
  url : Option String
  name : Option String
  file : UploadedFile
deriving Repr, DecidableEq

/-- Response of the POST endpoint: status code and error text, if any. -/
structure PostResponse where
  status : Nat
  error : Option String
deriving Repr, DecidableEq

/-- Model of `FileUploadSerializer` (serializers.py 188-244): url format
checks when a url is given, file size bounds, and the `validate` hook that
defaults the display name to the basename of the uploaded filename.
Returns the validated (name, url, file) triple, or none when invalid. -/
def fileUploadSerializer_validate (req : UploadRequest) :
    Option (String × Option String × UploadedFile) :=
  let urlOk :=
    match req.url with
    | some u => u.toList.head? == some '/' && !(u.toList.getLast? == some '/')
    | none => true
  let fileOk := req.file.size ≤ 10 * 1024 * 1024 && req.file.size != 0
  if urlOk && fileOk then
    let name :=
      match req.name with
      | some n => n
      | none => basename req.file.name
    some (name, req.url, req.file)
  else none

/-- Model of `FileListCreateView.post` (views.py 60-86): serializer
validation, then inside the try block the validator chain and the call
`create_file_document(user, name, file_obj, url)` — whose positional
arguments land in the parameters (user, url, name, file_obj) of
utils.create_file_document, so the display name is used as the document
key, the file object as the display name, and the url (or None) as the
file.  A ValidationError answers 400; any other exception answers 500 with
"File upload failed". -/
def fileListCreateView_post (u : PyUserState) (req : UploadRequest) :
    PyUserState × PostResponse :=
  match fileUploadSerializer_validate req with
  | none => (u, { status := 400, error := some "serializer errors" })
  | some (name, url, file_obj) =>
      match validate_file_upload file_obj u.profile url with
      | Except.error _ =>
          (u, { status := 400, error := some "validation error" })
      | Except.ok _ =>
          let urlArg : PyVal :=
            match url with
            | some s => .pstr s
            | none => .pnone
          match create_file_document_call u (.pstr name) (.pfile file_obj) urlArg with
          | (u', Except.ok _) => (u', { status := 201, error := none })
          | (u', Except.error _) =>
              (u', { status := 500, error := some "File upload failed" })

/-- C8 failing input: an upload request with the logical path omitted. -/
def c8_request : UploadRequest :=
  { url := none, name := none,
    file := { name := "report.txt", size := 100,
              content_type := some "text/plain",
              header := [114, 101, 112] } }

/-- C8 user: a fresh user with the default 1 GiB quota profile. -/
def c8_user : PyUserState :=
  { profile := some { storage_limit := 1073741824, storage_used := 0 },
    file_documents := [] }

/-- C8: evaluating the POST upload on a valid request whose logical path is
omitted.  The claim says a path is derived from the filename and the upload
succeeds; instead the scrambled positional call makes `file_obj` the value
None, the `.name` attribute access raises, and the endpoint answers 500
"File upload failed", leaving a document row keyed by the display name
"report.txt" (not a derived path) and no revision row at all. -/
theorem C8_post_with_omitted_path_fails :
    (fileListCreateView_post c8_user c8_request).2 =
      { status := 500, error := some "File upload failed" } ∧
    (fileListCreateView_post c8_user c8_request).1.file_documents.map
        PyDocumentRec.url = [PyVal.pstr "report.txt"] ∧
    ((fileListCreateView_post c8_user c8_request).1.file_documents.all
        fun d => d.revisions.isEmpty) = true := by
  refine ⟨?_, ?_, ?_⟩ <;> decide
